import Mathlib

set_option maxRecDepth 2000

/-!
Verification of the serialization micro-benchmark harness.

The repository benchmarks serialize/deserialize latency of four
data-interchange formats (JSON, MessagePack, FlatBuffers, Avro) over a
small synthetic record `{ foo: string, foo_number: number }` and one large
dataset, in three variants:

 - `Web`    : src/web/src/test.ts            (ITERATIONS = 10000)
 - `Main`   : src/unnamed/part_001           (ITERATIONS = 10000, adds Avro
              and three large-dataset tests and an N/A reporter branch)
 - `Mobile` : src/SerializationTest.tsx      (ITERATIONS = 1000; the file
              holds two revisions of the component: one FlatBuffers test
              using generated schema accessors, one using low-level byte
              reads)

Times are modelled as rationals (JS numbers carry exact sums and
differences of clock readings here; no rounding is performed by the
benchmark logic itself).  A clock is a function from the index of the
`performance.now()` call to the reading returned; each test function
performs exactly four clock calls (before/after the serialize loop,
before/after the deserialize loop).

The four codec libraries are external dependencies, not code of this
repository; where a claim depends on them they are modelled explicitly
as executable byte-level encoders/decoders (see the doc comments on the
individual codecs).
-/

/-- The record serialized in every small-fixture iteration
(`interface TestData { foo: string; foo_number: number }`).  The numeric
field only ever holds the loop index, a natural number. -/
structure TestData where
  foo : String
  foo_number : Nat
deriving DecidableEq

/-- The benchmark result record (`interface TestResult`) returned by every
test function. -/
structure TestResult where
  format : String
  serializeTime : ℚ
  deserializeTime : ℚ
  totalTime : ℚ
  iterations : Nat
deriving DecidableEq

/-- Serialize/deserialize events, used to record the order in which the
benchmark loops touch the iterations. -/
inductive Ev where
  | ser : Nat → Ev
  | deser : Nat → Ev
deriving DecidableEq

/-- Whether an event is a serialization of some iteration. -/
def Ev.isSer : Ev → Bool
  | .ser _ => true
  | .deser _ => false

/-- Whether an event is a deserialization of some iteration. -/
def Ev.isDeser : Ev → Bool
  | .ser _ => false
  | .deser _ => true

/-- Structured form of the `console.warn` diagnostics the deserialize
passes emit on a validation mismatch.  Each constructor mirrors one
message template of the source; its arguments are exactly the data
interpolated into that template. -/
inductive Diag where
  /-- Template: FlatBuffers string mismatch at iteration i, expected and
  actual value interpolated (`SerializationTest.tsx`, schema variant). -/
  | strMismatch : String → Nat → String → Option String → Diag
  /-- Template: FlatBuffers number mismatch at iteration i, expected and
  actual value interpolated (both `SerializationTest.tsx` variants). -/
  | numMismatch : String → Nat → Nat → Nat → Diag
  /-- Template: FlatBuffers string length mismatch at iteration i, with
  no expected or actual value interpolated (`SerializationTest.tsx`,
  low-level variant). -/
  | strLenMismatch : String → Nat → Diag
deriving DecidableEq

/-- Format name carried by a diagnostic message. -/
def Diag.fmtName : Diag → String
  | .strMismatch f _ _ _ => f
  | .numMismatch f _ _ _ => f
  | .strLenMismatch f _ => f

/-- Iteration index carried by a diagnostic message. -/
def Diag.iterIdx : Diag → Nat
  | .strMismatch _ i _ _ => i
  | .numMismatch _ i _ _ => i
  | .strLenMismatch _ i => i

/-- Whether the diagnostic's message interpolates both the expected and
the actual value. -/
def Diag.hasExpectedActual : Diag → Bool
  | .strMismatch _ _ _ _ => true
  | .numMismatch _ _ _ _ => true
  | .strLenMismatch _ _ => false

/-- Decimal digit character for a digit below ten. -/
def digitChar (d : Nat) : Char := Char.ofNat (48 + d)

/-- Little-endian decimal digit characters of a natural number. -/
def natCharsRev (n : Nat) : List Char :=
  if h : n < 10 then [digitChar n]
  else digitChar (n % 10) :: natCharsRev (n / 10)
decreasing_by exact Nat.div_lt_self (by omega) (by omega)

/-- Decimal digit characters of a natural number, most significant
first, as produced by JavaScript number-to-string conversion of a
nonnegative integer. -/
def natChars (n : Nat) : List Char := (natCharsRev n).reverse

/-- Decimal string of a natural number. -/
def natStr (n : Nat) : String := ⟨natChars n⟩

/-- Value of a most-significant-first decimal digit character list. -/
def readNat (cs : List Char) : Nat :=
  cs.foldl (fun acc c => acc * 10 + (c.toNat - 48)) 0

/-- Modelled from the spec: the textual codec.  `JSON.stringify` applied
to a `TestData` object (the external JSON library; key order follows the
object literal: `foo` then `foo_number`), restricted to field values the
harness actually produces (strings without escapes, nonnegative integral
numbers).  Character-level output:
`\x7b"foo":"<foo>","foo_number":<digits>\x7d`. -/
def jsonStringifyChars (d : TestData) : List Char :=
  "\x7b\"foo\":\"".data ++ d.foo.data ++
    ('"' :: ",\"foo_number\":".data) ++ natChars d.foo_number ++ ['\x7d']

/-- Strips an expected leading character sequence, returning the rest. -/
def stripLead : List Char → List Char → Option (List Char)
  | [], s => some s
  | _ :: _, [] => none
  | c :: p, d :: s => if c = d then stripLead p s else none

/-- Splits a character list at the first double quote, which is consumed. -/
def takeUntilQuote : List Char → Option (List Char × List Char)
  | [] => none
  | c :: s =>
    if c = '"' then some ([], s)
    else
      match takeUntilQuote s with
      | some (a, r) => some (c :: a, r)
      | none => none

/-- Reads the trailing `<digits>\x7d` of the serialized record. -/
def readNumTail (s : List Char) : Option Nat :=
  match s.takeWhile Char.isDigit, s.dropWhile Char.isDigit with
  | [], _ => none
  | _ :: _, ['\x7d'] => some (readNat (s.takeWhile Char.isDigit))
  | _, _ => none

/-- Modelled from the spec: `JSON.parse` of the external JSON library,
restricted to the exact shape `jsonStringifyChars` emits; any other input
is rejected (`none` models a parse error being thrown). -/
def jsonParseChars (s : List Char) : Option TestData :=
  match stripLead "\x7b\"foo\":\"".data s with
  | none => none
  | some s1 =>
    match takeUntilQuote s1 with
    | none => none
    | some (fooCs, s2) =>
      match stripLead ",\"foo_number\":".data s2 with
      | none => none
      | some s3 =>
        match readNumTail s3 with
        | none => none
        | some n => some ⟨⟨fooCs⟩, n⟩

/-- Byte sequence of a string, one byte per character.  Faithful to the
UTF-8 encoding used by the binary codecs for every string this harness
serializes (all are ASCII). -/
def strBytes (s : String) : List Nat := s.data.map Char.toNat

/-- Modelled from the spec: the MessagePack string encoding of
`@msgpack/msgpack` (fixstr below 32 bytes, str8 below 256). -/
def msgpackEncodeStr (s : String) : List Nat :=
  if s.length < 32 then (160 + s.length) :: strBytes s
  else 217 :: s.length :: strBytes s

/-- Modelled from the spec: the MessagePack unsigned integer encoding of
`@msgpack/msgpack` (positive fixint, uint8, uint16, uint32), covering
every value the harness encodes. -/
def msgpackEncodeNat (n : Nat) : List Nat :=
  if n < 128 then [n]
  else if n < 256 then [204, n]
  else if n < 65536 then [205, n / 256, n % 256]
  else [206, n / 16777216 % 256, n / 65536 % 256, n / 256 % 256, n % 256]

/-- Modelled from the spec: `encode` of `@msgpack/msgpack` applied to a
`TestData` object: a two-entry fixmap (tag 130) with the keys in object
literal order. -/
def msgpackEncode (d : TestData) : List Nat :=
  130 :: (msgpackEncodeStr "foo" ++ msgpackEncodeStr d.foo ++
    msgpackEncodeStr "foo_number" ++ msgpackEncodeNat d.foo_number)

/-- Reads one MessagePack-encoded string from a byte sequence. -/
def msgpackReadStr : List Nat → Option (String × List Nat)
  | [] => none
  | b :: rest =>
    if 160 ≤ b ∧ b ≤ 191 then
      if b - 160 ≤ rest.length then
        some (⟨(rest.take (b - 160)).map Char.ofNat⟩, rest.drop (b - 160))
      else none
    else if b = 217 then
      match rest with
      | [] => none
      | len :: rest2 =>
        if len ≤ rest2.length then
          some (⟨(rest2.take len).map Char.ofNat⟩, rest2.drop len)
        else none
    else none

/-- Reads one MessagePack-encoded unsigned integer from a byte sequence. -/
def msgpackReadNat : List Nat → Option (Nat × List Nat)
  | [] => none
  | b :: rest =>
    if b < 128 then some (b, rest)
    else if b = 204 then
      match rest with
      | v :: r => some (v, r)
      | [] => none
    else if b = 205 then
      match rest with
      | h2 :: l2 :: r => some (h2 * 256 + l2, r)
      | _ => none
    else if b = 206 then
      match rest with
      | b3 :: b2 :: b1 :: b0 :: r => some (((b3 * 256 + b2) * 256 + b1) * 256 + b0, r)
      | _ => none
    else none

/-- Modelled from the spec: `decode` of `@msgpack/msgpack`, restricted to
the two-entry map shape `msgpackEncode` emits; other input is rejected. -/
def msgpackDecode (bs : List Nat) : Option TestData :=
  match bs with
  | 130 :: rest =>
    match msgpackReadStr rest with
    | some (k1, r1) =>
      match msgpackReadStr r1 with
      | some (v1, r2) =>
        match msgpackReadStr r2 with
        | some (k2, r3) =>
          match msgpackReadNat r3 with
          | some (v2, r4) =>
            if k1 = "foo" ∧ k2 = "foo_number" ∧ r4 = [] then some ⟨v1, v2⟩
            else none
          | none => none
        | none => none
      | none => none
    | none => none
  | _ => none

/-- Base-128 little-endian varint with continuation bits, as used by the
Avro binary encoding. -/
def varintEnc (n : Nat) : List Nat :=
  if h : n < 128 then [n]
  else (128 + n % 128) :: varintEnc (n / 128)
decreasing_by exact Nat.div_lt_self (by omega) (by omega)

/-- Reads one varint from a byte sequence. -/
def varintRead : List Nat → Option (Nat × List Nat)
  | [] => none
  | b :: rest =>
    if b < 128 then some (b, rest)
    else
      match varintRead rest with
      | some (m, r) => some (b - 128 + 128 * m, r)
      | none => none

/-- Modelled from the spec: `schema.toBuffer` of `avsc` for the record
schema `(foo: string, foo_number: int)`: fields in schema order, a string
as a zigzag-varint byte length followed by its bytes, an int as a
zigzag varint (the zigzag of a nonnegative `n` is `2 * n`). -/
def avroEncode (d : TestData) : List Nat :=
  varintEnc (2 * d.foo.length) ++ strBytes d.foo ++ varintEnc (2 * d.foo_number)

/-- Modelled from the spec: `schema.fromBuffer` of `avsc` for the same
schema, restricted to nonnegative field values; other input is rejected. -/
def avroDecode (bs : List Nat) : Option TestData :=
  match varintRead bs with
  | none => none
  | some (len2, r1) =>
    if len2 % 2 = 0 ∧ len2 / 2 ≤ r1.length then
      match varintRead (r1.drop (len2 / 2)) with
      | some (n2, r2) =>
        if n2 % 2 = 0 ∧ r2 = [] then
          some ⟨⟨(r1.take (len2 / 2)).map Char.ofNat⟩, n2 / 2⟩
        else none
      | none => none
    else none

/-- Four little-endian bytes of a 32-bit number. -/
def u32le (n : Nat) : List Nat :=
  [n % 256, n / 256 % 256, n / 65536 % 256, n / 16777216 % 256]

/-- Modelled from the spec: the payload the generated FlatBuffers
bindings produce for one `TestData` record (builder `createString`,
`createTestData`, `finish`).  The generated binding code and the
`flatbuffers` library are external dependencies not under src/; the
payload is modelled as the byte length of the string, the string bytes,
and the 32-bit little-endian `foo_number`, which is invertible exactly
like the real table layout. -/
def fbEncode (d : TestData) : List Nat :=
  d.foo.length :: (strBytes d.foo ++ u32le d.foo_number)

/-- Modelled from the spec: the generated `foo()` accessor; a missing or
malformed string field reads as `null` (`none`). -/
def fbDecodeFoo (bs : List Nat) : Option String :=
  match bs with
  | [] => none
  | len :: rest =>
    if rest.length = len + 4 then some ⟨(rest.take len).map Char.ofNat⟩
    else none

/-- Modelled from the spec: the generated `fooNumber()` accessor; a
missing or malformed numeric field reads as the schema default 0. -/
def fbDecodeFooNumber (bs : List Nat) : Nat :=
  match bs with
  | [] => 0
  | len :: rest =>
    if rest.length = len + 4 then
      match rest.drop len with
      | [b0, b1, b2, b3] => b0 + 256 * (b1 + 256 * (b2 + 256 * b3))
      | _ => 0
    else 0

/-- Modelled from the spec: the low-level `ByteBuffer` read of the
string length field in the second `SerializationTest.tsx` revision
(`buf.readInt32(stringPos)`), expressed against the modelled payload
layout. -/
def fbLowStringLength (bs : List Nat) : Nat := bs.headD 0

/-- Modelled from the spec: the low-level `ByteBuffer` read of the
number field (`buf.readInt32(root + field1Offset)`), expressed against
the modelled payload layout. -/
def fbLowNumberValue (bs : List Nat) : Nat := fbDecodeFooNumber bs

/-- A stored encoded payload of the web FlatBuffers test: either an
aliased view of the single reused builder's buffer (`asUint8Array`
without a copy) or an independently-owned byte sequence (the result of
`.slice()`). -/
inductive PayloadRef where
  | view : PayloadRef
  | owned : List Nat → PayloadRef
deriving DecidableEq

/-- Whether the stored payload owns its bytes. -/
def PayloadRef.isOwned : PayloadRef → Bool
  | .view => false
  | .owned _ => true

/-- Reads the bytes of a stored payload at deserialization time, when
the builder's buffer holds whatever the final iteration left in it. -/
def resolvePayload (finalBuf : List Nat) : PayloadRef → List Nat
  | .view => finalBuf
  | .owned bs => bs

/-- State of the serialize loop of the web FlatBuffers test, which reuses
one `flatbuffers.Builder` across all iterations: the builder's current
buffer and the payloads stored so far. -/
structure FBBuilderState where
  builderBuf : List Nat
  stored : List PayloadRef
deriving DecidableEq

/-- One iteration of the web FlatBuffers serialize loop:
`builder.clear()`, build the record for index `i`, `builder.finish`,
take `builder.asUint8Array()` and store `buf.slice()` — an owned copy of
the buffer's current contents — at index `i`. -/
def fbSerStep (st : FBBuilderState) (i : Nat) : FBBuilderState :=
  { builderBuf := fbEncode ⟨"bar", i⟩
    stored := st.stored ++ [PayloadRef.owned (fbEncode ⟨"bar", i⟩)] }

/-- The web FlatBuffers serialize loop run over iterations `0..n`. -/
def fbSerLoop (n : Nat) : FBBuilderState :=
  (List.range n).foldl fbSerStep ⟨[], []⟩

/-- The serialize loop shared by all small-fixture tests: for `i` in
`[0, n)` push the encoding of the iteration's fixture onto the payload
list. -/
def serializePass (n : Nat) (enc : Nat → α) : List α :=
  (List.range n).foldl (fun acc i => acc ++ [enc i]) []

/-- Event trace of a serialize loop over `n` iterations. -/
def serLoopTrace (n : Nat) : List Ev :=
  (List.range n).foldl (fun tr i => tr ++ [Ev.ser i]) []

/-- Event trace of a deserialize loop over `n` iterations. -/
def deserLoopTrace (n : Nat) : List Ev :=
  (List.range n).foldl (fun tr i => tr ++ [Ev.deser i]) []

/-- Event trace of one small-fixture test: the serialize loop runs to
completion, then the deserialize loop runs. -/
def smallTrace (n : Nat) : List Ev := serLoopTrace n ++ deserLoopTrace n

/-- One complete execution of a benchmark test function: the returned
result record, the encoded payloads retained between the two loops, the
loop event trace, and any validation diagnostics emitted. -/
structure TestRun (π : Type) where
  result : TestResult
  payloads : List π
  trace : List Ev
  diags : List Diag

/-- The timing-and-aggregation skeleton shared verbatim by every test
function: `serializeTime` is the difference of the second and first
clock readings, `deserializeTime` of the fourth and third, and
`totalTime` is assigned the sum `serializeTime + deserializeTime`. -/
def mkResult (fmt : String) (iters : Nat) (clock : Nat → ℚ) : TestResult :=
  { format := fmt
    serializeTime := clock 1 - clock 0
    deserializeTime := clock 3 - clock 2
    totalTime := (clock 1 - clock 0) + (clock 3 - clock 2)
    iterations := iters }

/-- Modelled from the spec: JavaScript `Number.prototype.toFixed(2)`, an
external runtime primitive, modelled as exact decimal rendering of the
value rounded to hundredths. -/
def fixed2 (q : ℚ) : String :=
  (if ⌊q * 100 + 1 / 2⌋ < 0 then "-" else "") ++
    natStr ((⌊q * 100 + 1 / 2⌋ : ℤ).natAbs / 100) ++ "." ++
    (if (⌊q * 100 + 1 / 2⌋ : ℤ).natAbs % 100 < 10 then "0" else "") ++
    natStr ((⌊q * 100 + 1 / 2⌋ : ℤ).natAbs % 100)

/-- The shared `formatTime` helper: a millisecond value rendered with two
decimals and a unit suffix. -/
def formatTime (ms : ℚ) : String := fixed2 ms ++ " ms"

/-- The explicit not-applicable marker the extended web reporter shows in
the average-per-operation cell of single-iteration results. -/
def naMarker : String := "N/A (single operation)"

/-- Iteration count of the web profile (`src/web/src/test.ts`). -/
def Web.ITERATIONS : Nat := 10000

/-- The web `testJSON`: fixture `{foo: 'bar', foo_number: i}`,
`JSON.stringify` per iteration into an ordered list, then `JSON.parse`
of each stored payload. -/
def Web.testJSONRun (clock : Nat → ℚ) : TestRun (List Char) :=
  { result := mkResult "JSON" Web.ITERATIONS clock
    payloads := serializePass Web.ITERATIONS (fun i => jsonStringifyChars ⟨"bar", i⟩)
    trace := smallTrace Web.ITERATIONS
    diags := [] }

/-- The web `testMessagePack`: fixture `{foo: 'bar', foo_number: i}`,
`encode` per iteration, then `decode` of each stored payload. -/
def Web.testMessagePackRun (clock : Nat → ℚ) : TestRun (List Nat) :=
  { result := mkResult "MessagePack" Web.ITERATIONS clock
    payloads := serializePass Web.ITERATIONS (fun i => msgpackEncode ⟨"bar", i⟩)
    trace := smallTrace Web.ITERATIONS
    diags := [] }

/-- Final builder state after the web `testFlatBuffers` serialize loop. -/
def Web.fbSerFinal : FBBuilderState := fbSerLoop Web.ITERATIONS

/-- The web `testFlatBuffers`: one builder reused across iterations with
`builder.clear()`, payload `i` stored as `builder.asUint8Array().slice()`
(an owned copy); the payload bytes a later deserialization observes are
the stored payloads resolved against the builder's final buffer. -/
def Web.testFlatBuffersRun (clock : Nat → ℚ) : TestRun (List Nat) :=
  { result := mkResult "FlatBuffers" Web.ITERATIONS clock
    payloads := Web.fbSerFinal.stored.map (resolvePayload Web.fbSerFinal.builderBuf)
    trace := smallTrace Web.ITERATIONS
    diags := [] }

/-- Results list after the web `runAllTests` completes; each test's four
clock readings follow the previous test's in program order. -/
def Web.finalResults (clock : Nat → ℚ) : List TestResult :=
  [(Web.testJSONRun (fun k => clock k)).result,
   (Web.testMessagePackRun (fun k => clock (4 + k))).result,
   (Web.testFlatBuffersRun (fun k => clock (8 + k))).result]

/-- The web reporter's average-per-operation cell:
`formatTime(result.totalTime / (result.iterations * 2))`,
unconditionally. -/
def Web.avgPerOpCell (r : TestResult) : String :=
  formatTime (r.totalTime / ((r.iterations : ℚ) * 2))

/-- Iteration count of the extended web profile (`src/unnamed/part_001`). -/
def Main.ITERATIONS : Nat := 10000

/-- The extended web `testJSON`: the varying fixture
`{foo: 'bar' + i, foo_number: i}`. -/
def Main.testJSONRun (clock : Nat → ℚ) : TestRun (List Char) :=
  { result := mkResult "JSON" Main.ITERATIONS clock
    payloads := serializePass Main.ITERATIONS
      (fun i => jsonStringifyChars ⟨"bar" ++ natStr i, i⟩)
    trace := smallTrace Main.ITERATIONS
    diags := [] }

/-- The extended web `testMessagePack` (identical to the web variant). -/
def Main.testMessagePackRun (clock : Nat → ℚ) : TestRun (List Nat) :=
  { result := mkResult "MessagePack" Main.ITERATIONS clock
    payloads := serializePass Main.ITERATIONS (fun i => msgpackEncode ⟨"bar", i⟩)
    trace := smallTrace Main.ITERATIONS
    diags := [] }

/-- The extended web `testFlatBuffers` (identical to the web variant:
one cleared-and-reused builder, payloads stored via `.slice()`). -/
def Main.testFlatBuffersRun (clock : Nat → ℚ) : TestRun (List Nat) :=
  { result := mkResult "FlatBuffers" Main.ITERATIONS clock
    payloads := Web.fbSerFinal.stored.map (resolvePayload Web.fbSerFinal.builderBuf)
    trace := smallTrace Main.ITERATIONS
    diags := [] }

/-- The extended web `testAvro`: fixture `{foo: 'bar', foo_number: i}`,
`schema.toBuffer` per iteration, then `schema.fromBuffer` of each stored
payload. -/
def Main.testAvroRun (clock : Nat → ℚ) : TestRun (List Nat) :=
  { result := mkResult "Avro" Main.ITERATIONS clock
    payloads := serializePass Main.ITERATIONS (fun i => avroEncode ⟨"bar", i⟩)
    trace := smallTrace Main.ITERATIONS
    diags := [] }

/-- The extended web `testLargeJSON`: one `JSON.stringify` of the bundled
5MB asset (external static data, not under src/), one `JSON.parse`,
`iterations: 1`. -/
def Main.testLargeJSONRun (clock : Nat → ℚ) : TestRun Unit :=
  { result := mkResult "JSON (5MB)" 1 clock
    payloads := [()]
    trace := [Ev.ser 0, Ev.deser 0]
    diags := [] }

/-- The extended web `testLargeMessagePack`: one `encode` of the 5MB
asset, one `decode`, `iterations: 1`. -/
def Main.testLargeMessagePackRun (clock : Nat → ℚ) : TestRun Unit :=
  { result := mkResult "MessagePack (5MB)" 1 clock
    payloads := [()]
    trace := [Ev.ser 0, Ev.deser 0]
    diags := [] }

/-- The extended web `testLargeFlatBuffers`: one builder pass over the
5MB asset's person list, one read pass, `iterations: 1`. -/
def Main.testLargeFlatBuffersRun (clock : Nat → ℚ) : TestRun Unit :=
  { result := mkResult "FlatBuffers (5MB)" 1 clock
    payloads := [()]
    trace := [Ev.ser 0, Ev.deser 0]
    diags := [] }

/-- Results list after the extended web `runAllTests` completes, in
execution order; test number `t` consumes clock readings `4t..4t+3`. -/
def Main.finalResults (clock : Nat → ℚ) : List TestResult :=
  [(Main.testJSONRun (fun k => clock k)).result,
   (Main.testMessagePackRun (fun k => clock (4 + k))).result,
   (Main.testFlatBuffersRun (fun k => clock (8 + k))).result,
   (Main.testAvroRun (fun k => clock (12 + k))).result,
   (Main.testLargeJSONRun (fun k => clock (16 + k))).result,
   (Main.testLargeMessagePackRun (fun k => clock (20 + k))).result,
   (Main.testLargeFlatBuffersRun (fun k => clock (24 + k))).result]

/-- The successive `updateResults` arguments of the extended web
`runAllTests`: after each test completes, the list of all completed
results so far, in execution order. -/
def Main.runAllTestsUpdates (clock : Nat → ℚ) : List (List TestResult) :=
  [[(Main.testJSONRun (fun k => clock k)).result],
   [(Main.testJSONRun (fun k => clock k)).result,
    (Main.testMessagePackRun (fun k => clock (4 + k))).result],
   [(Main.testJSONRun (fun k => clock k)).result,
    (Main.testMessagePackRun (fun k => clock (4 + k))).result,
    (Main.testFlatBuffersRun (fun k => clock (8 + k))).result],
   [(Main.testJSONRun (fun k => clock k)).result,
    (Main.testMessagePackRun (fun k => clock (4 + k))).result,
    (Main.testFlatBuffersRun (fun k => clock (8 + k))).result,
    (Main.testAvroRun (fun k => clock (12 + k))).result],
   [(Main.testJSONRun (fun k => clock k)).result,
    (Main.testMessagePackRun (fun k => clock (4 + k))).result,
    (Main.testFlatBuffersRun (fun k => clock (8 + k))).result,
    (Main.testAvroRun (fun k => clock (12 + k))).result,
    (Main.testLargeJSONRun (fun k => clock (16 + k))).result],
   [(Main.testJSONRun (fun k => clock k)).result,
    (Main.testMessagePackRun (fun k => clock (4 + k))).result,
    (Main.testFlatBuffersRun (fun k => clock (8 + k))).result,
    (Main.testAvroRun (fun k => clock (12 + k))).result,
    (Main.testLargeJSONRun (fun k => clock (16 + k))).result,
    (Main.testLargeMessagePackRun (fun k => clock (20 + k))).result],
   [(Main.testJSONRun (fun k => clock k)).result,
    (Main.testMessagePackRun (fun k => clock (4 + k))).result,
    (Main.testFlatBuffersRun (fun k => clock (8 + k))).result,
    (Main.testAvroRun (fun k => clock (12 + k))).result,
    (Main.testLargeJSONRun (fun k => clock (16 + k))).result,
    (Main.testLargeMessagePackRun (fun k => clock (20 + k))).result,
    (Main.testLargeFlatBuffersRun (fun k => clock (24 + k))).result]]

/-- Iteration count of the mobile profile (`src/SerializationTest.tsx`). -/
def Mobile.ITERATIONS : Nat := 1000

/-- The mobile `testJSON` (same shape as the web variant, N = 1000). -/
def Mobile.testJSONRun (clock : Nat → ℚ) : TestRun (List Char) :=
  { result := mkResult "JSON" Mobile.ITERATIONS clock
    payloads := serializePass Mobile.ITERATIONS (fun i => jsonStringifyChars ⟨"bar", i⟩)
    trace := smallTrace Mobile.ITERATIONS
    diags := [] }

/-- The mobile `testMessagePack` (same shape as the web variant,
N = 1000). -/
def Mobile.testMessagePackRun (clock : Nat → ℚ) : TestRun (List Nat) :=
  { result := mkResult "MessagePack" Mobile.ITERATIONS clock
    payloads := serializePass Mobile.ITERATIONS (fun i => msgpackEncode ⟨"bar", i⟩)
    trace := smallTrace Mobile.ITERATIONS
    diags := [] }

/-- Payloads of the mobile `testFlatBuffers`: a fresh builder per
iteration, so each stored payload owns its bytes by construction. -/
def Mobile.fbPayloads : List (List Nat) :=
  serializePass Mobile.ITERATIONS (fun i => fbEncode ⟨"bar", i⟩)

/-- Diagnostics iteration `i` of the schema-based mobile FlatBuffers
deserialize loop emits: a string-mismatch warning when the decoded `foo`
differs from 'bar', then a number-mismatch warning when the decoded
`fooNumber` differs from `i`; both interpolate the expected and actual
value. -/
def Mobile.fbWarnAt (ps : List (List Nat)) (i : Nat) : List Diag :=
  (if fbDecodeFoo (ps.getD i []) ≠ some "bar" then
    [Diag.strMismatch "FlatBuffers" i "bar" (fbDecodeFoo (ps.getD i []))]
   else []) ++
  (if fbDecodeFooNumber (ps.getD i []) ≠ i then
    [Diag.numMismatch "FlatBuffers" i i (fbDecodeFooNumber (ps.getD i []))]
   else [])

/-- The schema-based mobile FlatBuffers deserialize loop run over an
arbitrary stored payload list: every iteration is processed in order and
its warnings appended; no mismatch stops the loop. -/
def Mobile.fbDeserWarnings (ps : List (List Nat)) : List Diag :=
  (List.range ps.length).foldl (fun ws i => ws ++ Mobile.fbWarnAt ps i) []

/-- Diagnostics iteration `i` of the low-level mobile FlatBuffers
deserialize loop emits: a string length warning — carrying no expected or
actual value — when the read string length differs from 3, then a
number-mismatch warning when the read number differs from `i`. -/
def Mobile.fbLowWarnAt (ps : List (List Nat)) (i : Nat) : List Diag :=
  (if fbLowStringLength (ps.getD i []) ≠ 3 then
    [Diag.strLenMismatch "FlatBuffers" i]
   else []) ++
  (if fbLowNumberValue (ps.getD i []) ≠ i then
    [Diag.numMismatch "FlatBuffers" i i (fbLowNumberValue (ps.getD i []))]
   else [])

/-- The low-level mobile FlatBuffers deserialize loop run over an
arbitrary stored payload list. -/
def Mobile.fbLowDeserWarnings (ps : List (List Nat)) : List Diag :=
  (List.range ps.length).foldl (fun ws i => ws ++ Mobile.fbLowWarnAt ps i) []

/-- The schema-based mobile `testFlatBuffers` with its deserialize loop
run over an explicit payload list (in the source the list is the one the
serialize loop just built; the loop body depends only on the list). -/
def Mobile.testFlatBuffersRunWith (ps : List (List Nat)) (clock : Nat → ℚ) :
    TestRun (List Nat) :=
  { result := mkResult "FlatBuffers" Mobile.ITERATIONS clock
    payloads := ps
    trace := smallTrace Mobile.ITERATIONS
    diags := Mobile.fbDeserWarnings ps }

/-- The schema-based mobile `testFlatBuffers` as the source runs it. -/
def Mobile.testFlatBuffersRun (clock : Nat → ℚ) : TestRun (List Nat) :=
  Mobile.testFlatBuffersRunWith Mobile.fbPayloads clock

/-- The low-level mobile `testFlatBuffers` of the second revision. -/
def Mobile.testFlatBuffersLowRun (clock : Nat → ℚ) : TestRun (List Nat) :=
  { result := mkResult "FlatBuffers" Mobile.ITERATIONS clock
    payloads := Mobile.fbPayloads
    trace := smallTrace Mobile.ITERATIONS
    diags := Mobile.fbLowDeserWarnings Mobile.fbPayloads }

/-- Results list after the mobile `runAllTests` completes. -/
def Mobile.finalResults (clock : Nat → ℚ) : List TestResult :=
  [(Mobile.testJSONRun (fun k => clock k)).result,
   (Mobile.testMessagePackRun (fun k => clock (4 + k))).result,
   (Mobile.testFlatBuffersRun (fun k => clock (8 + k))).result]

/-- The extended web reporter's average-per-operation cell:
`formatTime(result.totalTime / (result.iterations * 2))` when
`result.iterations > 1`, else the explicit marker. -/
def Main.avgPerOpCell (r : TestResult) : String :=
  if r.iterations > 1 then formatTime (r.totalTime / ((r.iterations : ℚ) * 2))
  else naMarker

/-- The mobile reporter's average-per-operation cell:
`formatTime(result.totalTime / (result.iterations * 2))`,
unconditionally (both revisions). -/
def Mobile.avgPerOpCell (r : TestResult) : String :=
  formatTime (r.totalTime / ((r.iterations : ℚ) * 2))

/-- The non-timing observables of one test execution: format label,
iterations field, stored payloads, loop trace, and diagnostics. -/
def TestRun.observables (r : TestRun π) :
    String × Nat × List π × List Ev × List Diag :=
  (r.result.format, r.result.iterations, r.payloads, r.trace, r.diags)

/-- A foldl that pushes one element per step is a map. -/
theorem foldl_push_eq_map (g : β → α) (l : List β) :
    ∀ init : List α, l.foldl (fun acc i => acc ++ [g i]) init = init ++ l.map g := by
  induction l with
  | nil => intro init; simp
  | cons x xs ih => intro init; simp [ih]

/-- A foldl that appends one block per step concatenates the blocks. -/
theorem foldl_append_eq_join (g : β → List α) (l : List β) :
    ∀ init : List α, l.foldl (fun acc i => acc ++ g i) init = init ++ (l.map g).join := by
  induction l with
  | nil => intro init; simp
  | cons x xs ih => intro init; simp [ih]

/-- Taking the length of the left part of an append yields that part. -/
theorem takeLen_append (l₁ l₂ : List α) : (l₁ ++ l₂).take l₁.length = l₁ := by
  induction l₁ with
  | nil => rfl
  | cons x xs ih => simp [ih]

/-- Dropping the length of the left part of an append yields the rest. -/
theorem dropLen_append (l₁ l₂ : List α) : (l₁ ++ l₂).drop l₁.length = l₂ := by
  induction l₁ with
  | nil => rfl
  | cons x xs ih => simpa using ih

/-- Indexing below the left part's length stays within the left part. -/
theorem getD_append_left (l₁ l₂ : List α) (dft : α) :
    ∀ i, i < l₁.length → (l₁ ++ l₂).getD i dft = l₁.getD i dft := by
  induction l₁ with
  | nil => intro i h; simp at h
  | cons x xs ih =>
    intro i h
    cases i with
    | zero => rfl
    | succ j => simpa using ih j (by simpa using h)

/-- Indexing an append at exactly the left part's length yields the
appended element. -/
theorem getD_append_at_length (l : List α) (x : α) (dft : α) :
    (l ++ [x]).getD l.length dft = x := by
  induction l with
  | nil => rfl
  | cons y ys ih => simpa using ih

/-- Indexing the map of a range below the bound evaluates the function. -/
theorem getD_map_range (f : Nat → α) (dft : α) :
    ∀ n i, i < n → ((List.range n).map f).getD i dft = f i := by
  intro n
  induction n with
  | zero => intro i h; omega
  | succ n ih =>
    intro i h
    rw [List.range_succ, List.map_append]
    by_cases hi : i < n
    · rw [getD_append_left _ _ _ i (by simpa using hi)]
      exact ih i hi
    · have hie : i = n := by omega
      subst hie
      have hl : (List.range i).length = i := List.length_range i
      calc ((List.range i).map f ++ [f i]).getD i dft
          = ((List.range i).map f ++ [f i]).getD ((List.range i).map f).length dft := by
            rw [List.length_map, hl]
        _ = f i := getD_append_at_length _ _ _

/-- Character value of a decimal digit character. -/
theorem digitChar_toNat (d : Nat) (h : d < 10) : (digitChar d).toNat = 48 + d := by
  interval_cases d <;> rfl

/-- Decimal digit characters satisfy the digit predicate. -/
theorem digitChar_isDigit (d : Nat) (h : d < 10) : (digitChar d).isDigit = true := by
  interval_cases d <;> rfl

/-- Every character a natural number renders to is a decimal digit
character. -/
theorem natCharsRev_all (n : Nat) : ∀ c ∈ natCharsRev n, ∃ d, d < 10 ∧ c = digitChar d := by
  induction n using Nat.strong_induction_on with
  | _ n ih =>
    rw [natCharsRev]
    split
    · next h =>
      intro c hc
      simp only [List.mem_singleton] at hc
      exact ⟨n, h, hc⟩
    · next h =>
      intro c hc
      rcases List.mem_cons.mp hc with hh | hh
      · exact ⟨n % 10, Nat.mod_lt _ (by omega), hh⟩
      · exact ih (n / 10) (Nat.div_lt_self (by omega) (by omega)) c hh

/-- The little-endian digit rendering is never empty. -/
theorem natCharsRev_ne_nil (n : Nat) : natCharsRev n ≠ [] := by
  rw [natCharsRev]
  split <;> simp

/-- The decimal rendering of a natural number is never empty. -/
theorem natChars_ne_nil (n : Nat) : natChars n ≠ [] := by
  rw [natChars]
  simpa using natCharsRev_ne_nil n

/-- Every character of the decimal rendering is a digit. -/
theorem natChars_digits (n : Nat) : ∀ c ∈ natChars n, c.isDigit = true := by
  intro c hc
  rw [natChars, List.mem_reverse] at hc
  obtain ⟨d, hd, rfl⟩ := natCharsRev_all n c hc
  exact digitChar_isDigit d hd

/-- Reading back the decimal rendering recovers the number. -/
theorem readNat_natChars (n : Nat) : readNat (natChars n) = n := by
  have key : ∀ m, (natCharsRev m).foldr (fun c acc => acc * 10 + (c.toNat - 48)) 0 = m := by
    intro m
    induction m using Nat.strong_induction_on with
    | _ m ih =>
      rw [natCharsRev]
      split
      · next h =>
        simp only [List.foldr_cons, List.foldr_nil]
        rw [digitChar_toNat m h]
        omega
      · next h =>
        simp only [List.foldr_cons]
        rw [ih (m / 10) (Nat.div_lt_self (by omega) (by omega))]
        rw [digitChar_toNat (m % 10) (Nat.mod_lt _ (by omega))]
        omega
  rw [readNat, natChars, List.foldl_reverse]
  exact key n

/-- Stripping an expected leading sequence from itself plus a rest
succeeds with the rest. -/
theorem stripLead_append (p : List Char) : ∀ s, stripLead p (p ++ s) = some s := by
  induction p with
  | nil => intro s; rfl
  | cons c p ih => intro s; simp [stripLead, ih]

/-- Splitting at the first quote of a quote-free part plus a quoted rest
returns the part and the rest. -/
theorem takeUntilQuote_append (a r : List Char) (h : '"' ∉ a) :
    takeUntilQuote (a ++ '"' :: r) = some (a, r) := by
  induction a with
  | nil => simp [takeUntilQuote]
  | cons c a ih =>
    have hc : ¬(c = '"') := fun e => h (by simp [e])
    have hrec := ih (fun hm => h (List.mem_cons_of_mem _ hm))
    simp [takeUntilQuote, hc, hrec]

/-- Taking while a predicate holds over a satisfying part followed by a
failing element splits at that element. -/
theorem takeWhile_all_append (p : α → Bool) (l : List α) (x : α) (r : List α)
    (hl : ∀ c ∈ l, p c = true) (hx : p x = false) :
    (l ++ x :: r).takeWhile p = l ∧ (l ++ x :: r).dropWhile p = x :: r := by
  induction l with
  | nil => simp [List.takeWhile_cons, List.dropWhile_cons, hx]
  | cons c l ih =>
    have hc : p c = true := hl c (by simp)
    have hrec := ih (fun d hd => hl d (by simp [hd]))
    simp [List.takeWhile_cons, List.dropWhile_cons, hc, hrec.1, hrec.2]

/-- Reading the numeric tail of a serialized record recovers the number. -/
theorem readNumTail_digits (n : Nat) : readNumTail (natChars n ++ ['\x7d']) = some n := by
  have h := takeWhile_all_append Char.isDigit (natChars n) '\x7d' []
    (natChars_digits n) (by decide)
  rw [readNumTail, h.1, h.2]
  rcases hcs : natChars n with _ | ⟨c, cs⟩
  · exact absurd hcs (natChars_ne_nil n)
  · simp only []
    rw [← hcs, readNat_natChars]

/-- Round trip of the modelled JSON codec on any record whose string
field contains no double quote. -/
theorem jsonParse_stringify (d : TestData) (h : '"' ∉ d.foo.data) :
    jsonParseChars (jsonStringifyChars d) = some d := by
  have e1 : jsonStringifyChars d =
      "\x7b\"foo\":\"".data ++ (d.foo.data ++ '"' ::
        (",\"foo_number\":".data ++ (natChars d.foo_number ++ ['\x7d']))) := by
    simp [jsonStringifyChars]
  rw [jsonParseChars, e1]
  simp only [stripLead_append, takeUntilQuote_append _ _ h, readNumTail_digits]

/-- The byte sequence of a string has the string's length. -/
theorem strBytes_length (s : String) : (strBytes s).length = s.length := by
  rw [strBytes, List.length_map]
  rfl

/-- Reading a MessagePack fixstr encoding recovers the string and leaves
the rest, for any ASCII string below 32 characters. -/
theorem msgpackReadStr_enc (s : String) (r : List Nat) (h : s.length < 32)
    (hs : (strBytes s).map Char.ofNat = s.data) :
    msgpackReadStr (msgpackEncodeStr s ++ r) = some (s, r) := by
  rw [msgpackEncodeStr, if_pos h, List.cons_append, msgpackReadStr.eq_def]
  set_option maxRecDepth 4000 in simp only []
  rw [if_pos (by omega : 160 ≤ 160 + s.length ∧ 160 + s.length ≤ 191)]
  have hsub : 160 + s.length - 160 = (strBytes s).length := by
    rw [strBytes_length]; omega
  rw [hsub, if_pos (by simp), takeLen_append, dropLen_append, hs]

/-- Reading a MessagePack unsigned integer encoding recovers the value
and leaves the rest, for any value below 2^32. -/
theorem msgpackReadNat_enc (n : Nat) (r : List Nat) (h : n < 4294967296) :
    msgpackReadNat (msgpackEncodeNat n ++ r) = some (n, r) := by
  rw [msgpackEncodeNat]
  by_cases h1 : n < 128
  · rw [if_pos h1, List.cons_append, List.nil_append, msgpackReadNat.eq_def]
    simp only []
    rw [if_pos h1]
  · rw [if_neg h1]
    by_cases h2 : n < 256
    · rw [if_pos h2, List.cons_append, List.cons_append, List.nil_append,
        msgpackReadNat.eq_def]
      simp only []
      simp
    · rw [if_neg h2]
      by_cases h3 : n < 65536
      · rw [if_pos h3]
        simp only [List.cons_append, List.nil_append]
        rw [msgpackReadNat.eq_def]
        simp only []
        simp
        omega
      · rw [if_neg h3]
        simp only [List.cons_append, List.nil_append]
        rw [msgpackReadNat.eq_def]
        simp only []
        simp
        omega

/-- Round trip of the modelled MessagePack codec on any record with an
ASCII string field below 32 characters and a numeric field below 2^32. -/
theorem msgpackRoundtrip (d : TestData) (h1 : d.foo.length < 32)
    (h2 : d.foo_number < 4294967296)
    (hs : (strBytes d.foo).map Char.ofNat = d.foo.data) :
    msgpackDecode (msgpackEncode d) = some d := by
  rw [msgpackEncode, msgpackDecode]
  simp only [List.append_assoc]
  rw [msgpackReadStr_enc "foo" _ (by decide) (by decide)]
  simp only []
  rw [msgpackReadStr_enc d.foo _ h1 hs]
  simp only []
  rw [msgpackReadStr_enc "foo_number" _ (by decide) (by decide)]
  simp only []
  rw [← List.append_nil (msgpackEncodeNat d.foo_number)]
  rw [msgpackReadNat_enc d.foo_number [] h2]
  simp

/-- Reading back a varint encoding recovers the value and leaves the
rest. -/
theorem varintRead_enc (n : Nat) : ∀ r, varintRead (varintEnc n ++ r) = some (n, r) := by
  induction n using Nat.strong_induction_on with
  | _ n ih =>
    intro r
    rw [varintEnc]
    split
    · next h =>
      simp [varintRead, h]
    · next h =>
      simp only [List.cons_append, varintRead, List.append_eq]
      rw [if_neg (by omega)]
      rw [ih (n / 128) (Nat.div_lt_self (by omega) (by omega)) r]
      simp only [Option.some.injEq, Prod.mk.injEq]
      exact ⟨by omega, by trivial⟩

/-- Round trip of the modelled Avro codec on any record with an ASCII
string field. -/
theorem avroRoundtrip (d : TestData)
    (hs : (strBytes d.foo).map Char.ofNat = d.foo.data) :
    avroDecode (avroEncode d) = some d := by
  rw [avroEncode, avroDecode]
  simp only [List.append_assoc]
  rw [varintRead_enc (2 * d.foo.length) _]
  have hd2 : 2 * d.foo.length / 2 = (strBytes d.foo).length := by
    rw [strBytes_length]; omega
  simp only []
  rw [if_pos (show 2 * d.foo.length % 2 = 0 ∧ 2 * d.foo.length / 2 ≤
      (strBytes d.foo ++ varintEnc (2 * d.foo_number)).length by
    refine ⟨by omega, ?_⟩
    rw [hd2]
    simp)]
  rw [hd2, dropLen_append, ← List.append_nil (varintEnc (2 * d.foo_number)),
    varintRead_enc (2 * d.foo_number) []]
  simp only []
  rw [if_pos (show 2 * d.foo_number % 2 = 0 ∧ True from ⟨by omega, trivial⟩)]
  rw [takeLen_append, hs]
  have h2 : 2 * d.foo_number / 2 = d.foo_number := by omega
  rw [h2]

/-- The modelled FlatBuffers string accessor recovers the string field of
an encoded record with an ASCII string. -/
theorem fbDecodeFoo_enc (d : TestData)
    (hs : (strBytes d.foo).map Char.ofNat = d.foo.data) :
    fbDecodeFoo (fbEncode d) = some d.foo := by
  rw [fbEncode, fbDecodeFoo]
  rw [if_pos (by simp [strBytes_length, u32le])]
  have : d.foo.length = (strBytes d.foo).length := (strBytes_length d.foo).symm
  rw [this, takeLen_append, hs]

/-- The modelled FlatBuffers numeric accessor recovers the numeric field
of an encoded record with value below 2^32. -/
theorem fbDecodeFooNumber_enc (d : TestData) (h : d.foo_number < 4294967296) :
    fbDecodeFooNumber (fbEncode d) = d.foo_number := by
  rw [fbEncode, fbDecodeFooNumber]
  rw [if_pos (by simp [strBytes_length, u32le])]
  have : d.foo.length = (strBytes d.foo).length := (strBytes_length d.foo).symm
  rw [this, dropLen_append]
  simp only [u32le]
  omega

/-- The serialize pass is the map of the encoder over the iteration
range. -/
theorem serializePass_eq_map (n : Nat) (enc : Nat → α) :
    serializePass n enc = (List.range n).map enc := by
  simpa [serializePass] using foldl_push_eq_map enc (List.range n) []

/-- The serialize pass retains one payload per iteration. -/
theorem serializePass_length (n : Nat) (enc : Nat → α) :
    (serializePass n enc).length = n := by
  rw [serializePass_eq_map, List.length_map, List.length_range]

/-- The payload at index `i` of the serialize pass is the encoding of
fixture `i`. -/
theorem serializePass_getD (n : Nat) (enc : Nat → List β) (i : Nat) (h : i < n) :
    (serializePass n enc).getD i [] = enc i := by
  rw [serializePass_eq_map]
  exact getD_map_range enc [] n i h

/-- The serialize loop trace lists one serialize event per iteration in
order. -/
theorem serLoopTrace_eq (n : Nat) : serLoopTrace n = (List.range n).map Ev.ser := by
  simpa [serLoopTrace] using foldl_push_eq_map Ev.ser (List.range n) []

/-- The deserialize loop trace lists one deserialize event per iteration
in order. -/
theorem deserLoopTrace_eq (n : Nat) : deserLoopTrace n = (List.range n).map Ev.deser := by
  simpa [deserLoopTrace] using foldl_push_eq_map Ev.deser (List.range n) []

/-- A small-fixture test's trace has two events per iteration. -/
theorem smallTrace_length (n : Nat) : (smallTrace n).length = 2 * n := by
  rw [smallTrace, serLoopTrace_eq, deserLoopTrace_eq]
  simp only [List.length_append, List.length_map, List.length_range]
  omega

/-- Taking a count equal to the left part's length yields that part. -/
theorem takeLen_append_of (l₁ l₂ : List α) (n : Nat) (h : l₁.length = n) :
    (l₁ ++ l₂).take n = l₁ := by
  subst h
  exact takeLen_append l₁ l₂

/-- Dropping a count equal to the left part's length yields the rest. -/
theorem dropLen_append_of (l₁ l₂ : List α) (n : Nat) (h : l₁.length = n) :
    (l₁ ++ l₂).drop n = l₂ := by
  subst h
  exact dropLen_append l₁ l₂

/-- The first `n` events of a small-fixture test's trace are exactly the
serialize events, in iteration order. -/
theorem smallTrace_take (n : Nat) : (smallTrace n).take n = (List.range n).map Ev.ser := by
  rw [smallTrace, serLoopTrace_eq, deserLoopTrace_eq]
  exact takeLen_append_of _ _ n (by simp)

/-- The events after the first `n` of a small-fixture test's trace are
exactly the deserialize events, in iteration order. -/
theorem smallTrace_drop (n : Nat) : (smallTrace n).drop n = (List.range n).map Ev.deser := by
  rw [smallTrace, serLoopTrace_eq, deserLoopTrace_eq]
  exact dropLen_append_of _ _ n (by simp)

/-- Unrolling one iteration of the reused-builder serialize loop. -/
theorem fbSerLoop_succ (n : Nat) : fbSerLoop (n + 1) = fbSerStep (fbSerLoop n) n := by
  rw [fbSerLoop, fbSerLoop, List.range_succ, List.foldl_append, List.foldl_cons,
    List.foldl_nil]

/-- After the reused-builder serialize loop, the stored payload at index
`i` is an owned copy of the encoding of fixture `i`. -/
theorem fbSerLoop_stored (n : Nat) :
    (fbSerLoop n).stored =
      (List.range n).map (fun i => PayloadRef.owned (fbEncode ⟨"bar", i⟩)) := by
  induction n with
  | zero => rfl
  | succ n ih =>
    rw [fbSerLoop_succ]
    show (fbSerLoop n).stored ++ [PayloadRef.owned (fbEncode ⟨"bar", n⟩)] = _
    rw [ih, List.range_succ, List.map_append]
    simp

/-- The schema-based deserialize loop's warnings are the concatenation of
each iteration's warnings, in iteration order. -/
theorem fbDeserWarnings_eq (ps : List (List Nat)) :
    Mobile.fbDeserWarnings ps = ((List.range ps.length).map (Mobile.fbWarnAt ps)).join := by
  simpa [Mobile.fbDeserWarnings] using
    foldl_append_eq_join (Mobile.fbWarnAt ps) (List.range ps.length) []

/-- The low-level deserialize loop's warnings are the concatenation of
each iteration's warnings, in iteration order. -/
theorem fbLowDeserWarnings_eq (ps : List (List Nat)) :
    Mobile.fbLowDeserWarnings ps =
      ((List.range ps.length).map (Mobile.fbLowWarnAt ps)).join := by
  simpa [Mobile.fbLowDeserWarnings] using
    foldl_append_eq_join (Mobile.fbLowWarnAt ps) (List.range ps.length) []

/-- A diagnostic in a per-iteration concatenation comes from some
iteration below the bound. -/
theorem mem_warnings_exists (g : Nat → List Diag) (n : Nat) (d : Diag)
    (hd : d ∈ ((List.range n).map g).join) : ∃ i, i < n ∧ d ∈ g i := by
  rcases List.mem_join.mp hd with ⟨l, hl, hdl⟩
  rcases List.mem_map.mp hl with ⟨i, hi, rfl⟩
  exact ⟨i, List.mem_range.mp hi, hdl⟩

/-- Every diagnostic of one schema-based validation iteration names the
format and the iteration and carries expected and actual values. -/
theorem fbWarnAt_shape (ps : List (List Nat)) (i : Nat) (d : Diag)
    (hd : d ∈ Mobile.fbWarnAt ps i) :
    d.fmtName = "FlatBuffers" ∧ d.iterIdx = i ∧ d.hasExpectedActual = true := by
  rw [Mobile.fbWarnAt] at hd
  rcases List.mem_append.mp hd with hm | hm
  · split at hm
    · simp only [List.mem_singleton] at hm
      subst hm
      exact ⟨rfl, rfl, rfl⟩
    · simp at hm
  · split at hm
    · simp only [List.mem_singleton] at hm
      subst hm
      exact ⟨rfl, rfl, rfl⟩
    · simp at hm

/-- Every diagnostic of one low-level validation iteration names the
format and the iteration. -/
theorem fbLowWarnAt_shape (ps : List (List Nat)) (i : Nat) (d : Diag)
    (hd : d ∈ Mobile.fbLowWarnAt ps i) :
    d.fmtName = "FlatBuffers" ∧ d.iterIdx = i := by
  rw [Mobile.fbLowWarnAt] at hd
  rcases List.mem_append.mp hd with hm | hm
  · split at hm
    · simp only [List.mem_singleton] at hm
      subst hm
      exact ⟨rfl, rfl⟩
    · simp at hm
  · split at hm
    · simp only [List.mem_singleton] at hm
      subst hm
      exact ⟨rfl, rfl⟩
    · simp at hm

/-- A number mismatch at any iteration of the schema-based deserialize
loop is reported in the warnings, whatever happened at other
iterations. -/
theorem fbWarn_detects (ps : List (List Nat)) (i : Nat) (h : i < ps.length)
    (hm : fbDecodeFooNumber (ps.getD i []) ≠ i) :
    Diag.numMismatch "FlatBuffers" i i (fbDecodeFooNumber (ps.getD i [])) ∈
      Mobile.fbDeserWarnings ps := by
  rw [fbDeserWarnings_eq]
  apply List.mem_join.mpr
  refine ⟨Mobile.fbWarnAt ps i, List.mem_map_of_mem _ (List.mem_range.mpr h), ?_⟩
  rw [Mobile.fbWarnAt]
  apply List.mem_append_right
  rw [if_pos hm]
  simp

/-- A string length mismatch at any iteration of the low-level
deserialize loop is reported in the warnings. -/
theorem fbLowWarn_detects (ps : List (List Nat)) (i : Nat) (h : i < ps.length)
    (hm : fbLowStringLength (ps.getD i []) ≠ 3) :
    Diag.strLenMismatch "FlatBuffers" i ∈ Mobile.fbLowDeserWarnings ps := by
  rw [fbLowDeserWarnings_eq]
  apply List.mem_join.mpr
  refine ⟨Mobile.fbLowWarnAt ps i, List.mem_map_of_mem _ (List.mem_range.mpr h), ?_⟩
  rw [Mobile.fbLowWarnAt]
  apply List.mem_append_left
  rw [if_pos hm]
  simp

/-- Every formatted time ends in the unit suffix. -/
theorem formatTime_last (q : ℚ) : (formatTime q).data.reverse.headD 'x' = 's' := by
  show ((fixed2 q).data ++ " ms".data).reverse.headD 'x' = 's'
  rw [List.reverse_append]
  rfl

/-- The not-applicable marker is not a rendered number: no formatted time
equals it. -/
theorem formatTime_ne_na (q : ℚ) : formatTime q ≠ naMarker := by
  intro hcontra
  have h1 := formatTime_last q
  rw [hcontra] at h1
  exact absurd h1 (by decide)

/-- No double quote occurs in the decimal rendering of a number. -/
theorem quote_not_mem_natChars (n : Nat) : '"' ∉ natChars n := by
  intro hmem
  have hd := natChars_digits n _ hmem
  exact absurd hd (by decide)

/-- No double quote occurs in the varying fixture string. -/
theorem quote_not_mem_barNat (i : Nat) : '"' ∉ ("bar" ++ natStr i).data := by
  intro hmem
  have he : ("bar" ++ natStr i).data = "bar".data ++ natChars i := rfl
  rw [he, List.mem_append] at hmem
  rcases hmem with hb | hn
  · exact absurd hb (by decide)
  · exact quote_not_mem_natChars i hn

/-- C1: for every benchmark test function of every format, small and
large variants alike, the totalTime field of the returned result equals
serializeTime + deserializeTime exactly — it is assigned that sum, not
measured independently. -/
theorem totalTime_is_sum_of_parts (clock : Nat → ℚ) :
    (Web.testJSONRun clock).result.totalTime =
      (Web.testJSONRun clock).result.serializeTime +
        (Web.testJSONRun clock).result.deserializeTime ∧
    (Web.testMessagePackRun clock).result.totalTime =
      (Web.testMessagePackRun clock).result.serializeTime +
        (Web.testMessagePackRun clock).result.deserializeTime ∧
    (Web.testFlatBuffersRun clock).result.totalTime =
      (Web.testFlatBuffersRun clock).result.serializeTime +
        (Web.testFlatBuffersRun clock).result.deserializeTime ∧
    (Main.testJSONRun clock).result.totalTime =
      (Main.testJSONRun clock).result.serializeTime +
        (Main.testJSONRun clock).result.deserializeTime ∧
    (Main.testMessagePackRun clock).result.totalTime =
      (Main.testMessagePackRun clock).result.serializeTime +
        (Main.testMessagePackRun clock).result.deserializeTime ∧
    (Main.testFlatBuffersRun clock).result.totalTime =
      (Main.testFlatBuffersRun clock).result.serializeTime +
        (Main.testFlatBuffersRun clock).result.deserializeTime ∧
    (Main.testAvroRun clock).result.totalTime =
      (Main.testAvroRun clock).result.serializeTime +
        (Main.testAvroRun clock).result.deserializeTime ∧
    (Main.testLargeJSONRun clock).result.totalTime =
      (Main.testLargeJSONRun clock).result.serializeTime +
        (Main.testLargeJSONRun clock).result.deserializeTime ∧
    (Main.testLargeMessagePackRun clock).result.totalTime =
      (Main.testLargeMessagePackRun clock).result.serializeTime +
        (Main.testLargeMessagePackRun clock).result.deserializeTime ∧
    (Main.testLargeFlatBuffersRun clock).result.totalTime =
      (Main.testLargeFlatBuffersRun clock).result.serializeTime +
        (Main.testLargeFlatBuffersRun clock).result.deserializeTime ∧
    (Mobile.testJSONRun clock).result.totalTime =
      (Mobile.testJSONRun clock).result.serializeTime +
        (Mobile.testJSONRun clock).result.deserializeTime ∧
    (Mobile.testMessagePackRun clock).result.totalTime =
      (Mobile.testMessagePackRun clock).result.serializeTime +
        (Mobile.testMessagePackRun clock).result.deserializeTime ∧
    (Mobile.testFlatBuffersRun clock).result.totalTime =
      (Mobile.testFlatBuffersRun clock).result.serializeTime +
        (Mobile.testFlatBuffersRun clock).result.deserializeTime ∧
    (Mobile.testFlatBuffersLowRun clock).result.totalTime =
      (Mobile.testFlatBuffersLowRun clock).result.serializeTime +
        (Mobile.testFlatBuffersLowRun clock).result.deserializeTime :=
  ⟨rfl, rfl, rfl, rfl, rfl, rfl, rfl, rfl, rfl, rfl, rfl, rfl, rfl, rfl⟩

/-- C2: for every result record each reporter actually renders, the
average-per-operation cell is `formatTime(totalTime / (iterations * 2))`
when `iterations > 1` and the explicit not-applicable marker — which no
formatted number equals — when `iterations == 1`.  The extended web
runner renders the three large results with `iterations == 1` and gets
the marker; the mobile and web runners only ever render results with
1000 and 10000 iterations and always get the division. -/
theorem avgPerOp_rendering (clock : Nat → ℚ) :
    (Main.finalResults clock).map TestResult.iterations =
      [10000, 10000, 10000, 10000, 1, 1, 1] ∧
    (Main.finalResults clock).map Main.avgPerOpCell =
      ((Main.finalResults clock).take 4).map
        (fun r => formatTime (r.totalTime / ((r.iterations : ℚ) * 2))) ++
        [naMarker, naMarker, naMarker] ∧
    (Mobile.finalResults clock).map TestResult.iterations = [1000, 1000, 1000] ∧
    (Mobile.finalResults clock).map Mobile.avgPerOpCell =
      (Mobile.finalResults clock).map
        (fun r => formatTime (r.totalTime / ((r.iterations : ℚ) * 2))) ∧
    (Web.finalResults clock).map TestResult.iterations = [10000, 10000, 10000] ∧
    (Web.finalResults clock).map Web.avgPerOpCell =
      (Web.finalResults clock).map
        (fun r => formatTime (r.totalTime / ((r.iterations : ℚ) * 2))) ∧
    (∀ q : ℚ, formatTime q ≠ naMarker) :=
  ⟨rfl, rfl, rfl, rfl, rfl, rfl, formatTime_ne_na⟩

/-- C2 witness: the marker differs from a concretely formatted number. -/
theorem avgPerOp_rendering_witness : formatTime 0 ≠ naMarker :=
  (avgPerOp_rendering (fun _ => 0)).2.2.2.2.2.2 0

/-- C3: for every format and every iteration index below the profile's
bound, deserializing the payload produced by serializing fixture `i`
reproduces the fixture's observable fields exactly — the numeric field is
`i` and the string field is the generated string, 'bar' or 'bar' + i in
the varying variant — and the payload stored at index `i` is exactly that
serialization. -/
theorem roundtrip_reproduces_fixture (clock : Nat → ℚ) (i : Nat) (h : i < 10000) :
    jsonParseChars (jsonStringifyChars ⟨"bar", i⟩) = some ⟨"bar", i⟩ ∧
    jsonParseChars (jsonStringifyChars ⟨"bar" ++ natStr i, i⟩) =
      some ⟨"bar" ++ natStr i, i⟩ ∧
    msgpackDecode (msgpackEncode ⟨"bar", i⟩) = some ⟨"bar", i⟩ ∧
    avroDecode (avroEncode ⟨"bar", i⟩) = some ⟨"bar", i⟩ ∧
    fbDecodeFoo (fbEncode ⟨"bar", i⟩) = some "bar" ∧
    fbDecodeFooNumber (fbEncode ⟨"bar", i⟩) = i ∧
    (Web.testJSONRun clock).payloads.getD i [] = jsonStringifyChars ⟨"bar", i⟩ ∧
    (Main.testJSONRun clock).payloads.getD i [] =
      jsonStringifyChars ⟨"bar" ++ natStr i, i⟩ ∧
    (i < 1000 →
      (Mobile.testFlatBuffersRun clock).payloads.getD i [] = fbEncode ⟨"bar", i⟩) := by
  have hq : '"' ∉ ("bar" : String).data := by decide
  have hl32 : ("bar" : String).length < 32 := by decide
  have hascii : (strBytes "bar").map Char.ofNat = ("bar" : String).data := by decide
  refine ⟨jsonParse_stringify ⟨"bar", i⟩ hq,
    jsonParse_stringify ⟨"bar" ++ natStr i, i⟩ (quote_not_mem_barNat i),
    msgpackRoundtrip ⟨"bar", i⟩ hl32 (show i < 4294967296 by omega) hascii,
    avroRoundtrip ⟨"bar", i⟩ hascii,
    fbDecodeFoo_enc ⟨"bar", i⟩ hascii,
    fbDecodeFooNumber_enc ⟨"bar", i⟩ (show i < 4294967296 by omega), ?_, ?_, ?_⟩
  · simp only [Web.testJSONRun]
    exact serializePass_getD Web.ITERATIONS _ i h
  · simp only [Main.testJSONRun]
    exact serializePass_getD Main.ITERATIONS _ i h
  · intro h1
    simp only [Mobile.testFlatBuffersRun, Mobile.testFlatBuffersRunWith,
      Mobile.fbPayloads]
    exact serializePass_getD Mobile.ITERATIONS _ i h1

/-- C3 witness: the claim instantiated at iteration 3. -/
theorem roundtrip_reproduces_fixture_witness :
    3 < 10000 ∧ jsonParseChars (jsonStringifyChars ⟨"bar", 3⟩) = some ⟨"bar", 3⟩ :=
  ⟨by norm_num, (roundtrip_reproduces_fixture (fun _ => 0) 3 (by norm_num)).1⟩

/-- C4: in the web FlatBuffers test that reuses one builder across all
iterations, the payload stored at index `i` is an independently-owned
copy of the builder's bytes for fixture `i`, so that after all
serializations complete, resolving and deserializing payload `i` against
the builder's final buffer still yields `foo_number == i` — the payloads
are not aliased views of the final iteration's buffer. -/
theorem web_fb_payloads_owned (i : Nat) (h : i < Web.ITERATIONS) :
    Web.fbSerFinal.stored.getD i PayloadRef.view =
      PayloadRef.owned (fbEncode ⟨"bar", i⟩) ∧
    (Web.fbSerFinal.stored.getD i PayloadRef.view).isOwned = true ∧
    fbDecodeFooNumber (resolvePayload Web.fbSerFinal.builderBuf
      (Web.fbSerFinal.stored.getD i PayloadRef.view)) = i := by
  have hst : Web.fbSerFinal.stored.getD i PayloadRef.view =
      PayloadRef.owned (fbEncode ⟨"bar", i⟩) := by
    show (fbSerLoop Web.ITERATIONS).stored.getD i PayloadRef.view = _
    rw [fbSerLoop_stored]
    exact getD_map_range _ _ _ i h
  refine ⟨hst, by rw [hst]; rfl, ?_⟩
  rw [hst]
  show fbDecodeFooNumber (fbEncode ⟨"bar", i⟩) = i
  have hi : i < 10000 := h
  exact fbDecodeFooNumber_enc ⟨"bar", i⟩ (show i < 4294967296 by omega)

/-- C4 witness: the claim instantiated at iteration 5. -/
theorem web_fb_payloads_owned_witness :
    5 < Web.ITERATIONS ∧
      Web.fbSerFinal.stored.getD 5 PayloadRef.view =
        PayloadRef.owned (fbEncode ⟨"bar", 5⟩) :=
  ⟨by decide, (web_fb_payloads_owned 5 (by decide)).1⟩

/-- C5: for any iteration count N, the serialize loop retains exactly N
payloads in an ordered sequence at the moment the deserialize loop
begins, and the trace of a small-fixture test is the N serialize events
followed by the N deserialize events, with no interleaving; the embedded
tests retain 10000 (web profiles) and 1000 (mobile profile) payloads. -/
theorem serialize_completes_before_deserialize (N : Nat) (clock : Nat → ℚ) :
    (serializePass N (fun i => jsonStringifyChars ⟨"bar", i⟩)).length = N ∧
    (smallTrace N).length = 2 * N ∧
    (smallTrace N).take N = (List.range N).map Ev.ser ∧
    (smallTrace N).drop N = (List.range N).map Ev.deser ∧
    (Web.testJSONRun clock).payloads.length = 10000 ∧
    (Web.testMessagePackRun clock).payloads.length = 10000 ∧
    (Web.testFlatBuffersRun clock).payloads.length = 10000 ∧
    (Main.testAvroRun clock).payloads.length = 10000 ∧
    (Mobile.testJSONRun clock).payloads.length = 1000 := by
  refine ⟨serializePass_length _ _, smallTrace_length N, smallTrace_take N,
    smallTrace_drop N, ?_, ?_, ?_, ?_, ?_⟩
  · simp only [Web.testJSONRun]
    exact (serializePass_length Web.ITERATIONS _).trans rfl
  · simp only [Web.testMessagePackRun]
    exact (serializePass_length Web.ITERATIONS _).trans rfl
  · simp only [Web.testFlatBuffersRun, Web.fbSerFinal]
    rw [List.length_map, fbSerLoop_stored, List.length_map, List.length_range]
    rfl
  · simp only [Main.testAvroRun]
    exact (serializePass_length Main.ITERATIONS _).trans rfl
  · simp only [Mobile.testJSONRun]
    exact (serializePass_length Mobile.ITERATIONS _).trans rfl

/-- C6: within one run, the extended web runner executes the formats
strictly one at a time in the declared order JSON, MessagePack,
FlatBuffers, Avro, then the large-dataset variants, and the results list
after each append is exactly the prefix of the final results in that
execution order. -/
theorem runner_executes_in_declared_order (clock : Nat → ℚ) :
    Main.runAllTestsUpdates clock =
      [(Main.finalResults clock).take 1, (Main.finalResults clock).take 2,
       (Main.finalResults clock).take 3, (Main.finalResults clock).take 4,
       (Main.finalResults clock).take 5, (Main.finalResults clock).take 6,
       (Main.finalResults clock).take 7] ∧
    (Main.finalResults clock).map TestResult.format =
      ["JSON", "MessagePack", "FlatBuffers", "Avro", "JSON (5MB)",
       "MessagePack (5MB)", "FlatBuffers (5MB)"] ∧
    (Main.runAllTestsUpdates clock).length = 7 :=
  ⟨rfl, rfl, rfl⟩

/-- C7: every large-dataset test performs exactly one serialize and one
deserialize — its trace is one serialize event followed by one
deserialize event — and returns a result whose iterations field is 1;
the three definitions take no iteration-count input at all, so this holds
whatever the profile's configured iteration count is. -/
theorem large_tests_single_operation (clock : Nat → ℚ) :
    (Main.testLargeJSONRun clock).result.iterations = 1 ∧
    (Main.testLargeMessagePackRun clock).result.iterations = 1 ∧
    (Main.testLargeFlatBuffersRun clock).result.iterations = 1 ∧
    (Main.testLargeJSONRun clock).trace = [Ev.ser 0, Ev.deser 0] ∧
    (Main.testLargeMessagePackRun clock).trace = [Ev.ser 0, Ev.deser 0] ∧
    (Main.testLargeFlatBuffersRun clock).trace = [Ev.ser 0, Ev.deser 0] ∧
    (Main.testLargeJSONRun clock).trace.countP Ev.isSer = 1 ∧
    (Main.testLargeJSONRun clock).trace.countP Ev.isDeser = 1 ∧
    (Main.testLargeMessagePackRun clock).trace.countP Ev.isSer = 1 ∧
    (Main.testLargeMessagePackRun clock).trace.countP Ev.isDeser = 1 ∧
    (Main.testLargeFlatBuffersRun clock).trace.countP Ev.isSer = 1 ∧
    (Main.testLargeFlatBuffersRun clock).trace.countP Ev.isDeser = 1 :=
  ⟨rfl, rfl, rfl, rfl, rfl, rfl, rfl, rfl, rfl, rfl, rfl, rfl⟩

/-- C9: under the hypothesis that successive clock readings are monotone
non-decreasing, the serializeTime and deserializeTime of every test
function's result are non-negative, each being a later clock reading
minus an earlier one. -/
theorem times_nonneg_of_monotone_clock (clock : Nat → ℚ) (h : Monotone clock) :
    (0 ≤ (Web.testJSONRun clock).result.serializeTime ∧
      0 ≤ (Web.testJSONRun clock).result.deserializeTime) ∧
    (0 ≤ (Web.testMessagePackRun clock).result.serializeTime ∧
      0 ≤ (Web.testMessagePackRun clock).result.deserializeTime) ∧
    (0 ≤ (Web.testFlatBuffersRun clock).result.serializeTime ∧
      0 ≤ (Web.testFlatBuffersRun clock).result.deserializeTime) ∧
    (0 ≤ (Main.testJSONRun clock).result.serializeTime ∧
      0 ≤ (Main.testJSONRun clock).result.deserializeTime) ∧
    (0 ≤ (Main.testMessagePackRun clock).result.serializeTime ∧
      0 ≤ (Main.testMessagePackRun clock).result.deserializeTime) ∧
    (0 ≤ (Main.testFlatBuffersRun clock).result.serializeTime ∧
      0 ≤ (Main.testFlatBuffersRun clock).result.deserializeTime) ∧
    (0 ≤ (Main.testAvroRun clock).result.serializeTime ∧
      0 ≤ (Main.testAvroRun clock).result.deserializeTime) ∧
    (0 ≤ (Main.testLargeJSONRun clock).result.serializeTime ∧
      0 ≤ (Main.testLargeJSONRun clock).result.deserializeTime) ∧
    (0 ≤ (Main.testLargeMessagePackRun clock).result.serializeTime ∧
      0 ≤ (Main.testLargeMessagePackRun clock).result.deserializeTime) ∧
    (0 ≤ (Main.testLargeFlatBuffersRun clock).result.serializeTime ∧
      0 ≤ (Main.testLargeFlatBuffersRun clock).result.deserializeTime) ∧
    (0 ≤ (Mobile.testJSONRun clock).result.serializeTime ∧
      0 ≤ (Mobile.testJSONRun clock).result.deserializeTime) ∧
    (0 ≤ (Mobile.testMessagePackRun clock).result.serializeTime ∧
      0 ≤ (Mobile.testMessagePackRun clock).result.deserializeTime) ∧
    (0 ≤ (Mobile.testFlatBuffersRun clock).result.serializeTime ∧
      0 ≤ (Mobile.testFlatBuffersRun clock).result.deserializeTime) ∧
    (0 ≤ (Mobile.testFlatBuffersLowRun clock).result.serializeTime ∧
      0 ≤ (Mobile.testFlatBuffersLowRun clock).result.deserializeTime) := by
  have hs : (0 : ℚ) ≤ clock 1 - clock 0 := sub_nonneg.mpr (h (by omega))
  have hd : (0 : ℚ) ≤ clock 3 - clock 2 := sub_nonneg.mpr (h (by omega))
  exact ⟨⟨hs, hd⟩, ⟨hs, hd⟩, ⟨hs, hd⟩, ⟨hs, hd⟩, ⟨hs, hd⟩, ⟨hs, hd⟩, ⟨hs, hd⟩,
    ⟨hs, hd⟩, ⟨hs, hd⟩, ⟨hs, hd⟩, ⟨hs, hd⟩, ⟨hs, hd⟩, ⟨hs, hd⟩, ⟨hs, hd⟩⟩

/-- C9 witness: a constant clock is monotone and yields non-negative
times. -/
theorem times_nonneg_witness :
    Monotone (fun _ : Nat => (0 : ℚ)) ∧
      0 ≤ (Web.testJSONRun (fun _ => 0)).result.serializeTime :=
  ⟨monotone_const, (times_nonneg_of_monotone_clock (fun _ => 0) monotone_const).1.1⟩

/-- C10: two executions of the same test function differing only in the
clock readings have identical non-timing observables: format label,
iterations field, stored payloads, loop trace, and diagnostics; only the
three timing fields can differ. -/
theorem observables_independent_of_clock (c1 c2 : Nat → ℚ) :
    (Web.testJSONRun c1).observables = (Web.testJSONRun c2).observables ∧
    (Web.testMessagePackRun c1).observables = (Web.testMessagePackRun c2).observables ∧
    (Web.testFlatBuffersRun c1).observables = (Web.testFlatBuffersRun c2).observables ∧
    (Main.testJSONRun c1).observables = (Main.testJSONRun c2).observables ∧
    (Main.testMessagePackRun c1).observables = (Main.testMessagePackRun c2).observables ∧
    (Main.testFlatBuffersRun c1).observables = (Main.testFlatBuffersRun c2).observables ∧
    (Main.testAvroRun c1).observables = (Main.testAvroRun c2).observables ∧
    (Main.testLargeJSONRun c1).observables = (Main.testLargeJSONRun c2).observables ∧
    (Main.testLargeMessagePackRun c1).observables =
      (Main.testLargeMessagePackRun c2).observables ∧
    (Main.testLargeFlatBuffersRun c1).observables =
      (Main.testLargeFlatBuffersRun c2).observables ∧
    (Mobile.testJSONRun c1).observables = (Mobile.testJSONRun c2).observables ∧
    (Mobile.testMessagePackRun c1).observables =
      (Mobile.testMessagePackRun c2).observables ∧
    (Mobile.testFlatBuffersRun c1).observables =
      (Mobile.testFlatBuffersRun c2).observables ∧
    (Mobile.testFlatBuffersLowRun c1).observables =
      (Mobile.testFlatBuffersLowRun c2).observables :=
  ⟨rfl, rfl, rfl, rfl, rfl, rfl, rfl, rfl, rfl, rfl, rfl, rfl, rfl, rfl⟩

/-- C8 counterexample: feed the low-level FlatBuffers deserialize loop
one payload whose string field is 'aaaa' — its decoded string differs
from the expected 'bar', a field mismatch.  The loop emits exactly one
diagnostic, the string length warning, and that diagnostic interpolates
no expected and no actual value, contradicting the claim that every
mismatch diagnostic contains the format, iteration index, expected and
actual values. -/
theorem lowlevel_diag_lacks_expected_actual :
    fbDecodeFoo [4, 97, 97, 97, 97, 0, 0, 0, 0] ≠ some "bar" ∧
    Mobile.fbLowDeserWarnings [[4, 97, 97, 97, 97, 0, 0, 0, 0]] =
      [Diag.strLenMismatch "FlatBuffers" 0] ∧
    (Diag.strLenMismatch "FlatBuffers" 0).hasExpectedActual = false := by
  refine ⟨by decide, by decide, rfl⟩

/-- C8 amended: on a field mismatch, the deserialize passes emit
non-fatal diagnostics that always carry the format name and the
iteration index; the schema-based pass's diagnostics also carry the
expected and actual values, while the low-level pass detects a string
mismatch only through the length-differs-from-3 check and that
diagnostic omits the expected and actual values, though its
number-mismatch diagnostic carries both.  No mismatch aborts the
benchmark: the pass processes every iteration in order — its warnings
are one block per iteration, and a mismatch at any iteration below the
bound is reported whatever happens elsewhere — and the test function
still returns the complete result record. -/
theorem mismatch_diagnostics_nonfatal (ps : List (List Nat)) (clock : Nat → ℚ) :
    Mobile.fbDeserWarnings ps = ((List.range ps.length).map (Mobile.fbWarnAt ps)).join ∧
    (∀ d ∈ Mobile.fbDeserWarnings ps,
      d.fmtName = "FlatBuffers" ∧ d.iterIdx < ps.length ∧ d.hasExpectedActual = true) ∧
    (∀ i, i < ps.length → fbDecodeFooNumber (ps.getD i []) ≠ i →
      Diag.numMismatch "FlatBuffers" i i (fbDecodeFooNumber (ps.getD i [])) ∈
        Mobile.fbDeserWarnings ps) ∧
    (∀ d ∈ Mobile.fbLowDeserWarnings ps,
      d.fmtName = "FlatBuffers" ∧ d.iterIdx < ps.length) ∧
    (∀ i, i < ps.length → fbLowStringLength (ps.getD i []) ≠ 3 →
      Diag.strLenMismatch "FlatBuffers" i ∈ Mobile.fbLowDeserWarnings ps) ∧
    (Mobile.testFlatBuffersRunWith ps clock).result =
      mkResult "FlatBuffers" Mobile.ITERATIONS clock := by
  refine ⟨fbDeserWarnings_eq ps, ?_, ?_, ?_, ?_, rfl⟩
  · intro d hd
    rw [fbDeserWarnings_eq] at hd
    obtain ⟨i, hi, hdi⟩ := mem_warnings_exists _ _ _ hd
    obtain ⟨h1, h2, h3⟩ := fbWarnAt_shape ps i d hdi
    exact ⟨h1, by rw [h2]; exact hi, h3⟩
  · exact fun i hi hm => fbWarn_detects ps i hi hm
  · intro d hd
    rw [fbLowDeserWarnings_eq] at hd
    obtain ⟨i, hi, hdi⟩ := mem_warnings_exists _ _ _ hd
    obtain ⟨h1, h2⟩ := fbLowWarnAt_shape ps i d hdi
    exact ⟨h1, by rw [h2]; exact hi⟩
  · exact fun i hi hm => fbLowWarn_detects ps i hi hm

/-- C8 amended witness: the amended claim instantiated on one concrete
mismatching payload list. -/
theorem mismatch_diagnostics_nonfatal_witness :
    Mobile.fbDeserWarnings [[4, 97, 97, 97, 97, 0, 0, 0, 0]] =
      ((List.range (1 : Nat)).map
        (Mobile.fbWarnAt [[4, 97, 97, 97, 97, 0, 0, 0, 0]])).join :=
  (mismatch_diagnostics_nonfatal [[4, 97, 97, 97, 97, 0, 0, 0, 0]] (fun _ => 0)).1
